import Mathlib

/-!
Verification development for the schema inference and evolution-guard engine
of `generate_snowflake_ddl.py` (blockchair-etl).

The Python source is shallowly embedded: pure helper functions become Lean
functions on `List Char` / `String` / `List (String × String)`; calls into
external libraries (pandas parsing, the JSON serializer) are modelled by
explicit parameters or by record-level values, as noted at each definition.
-/

namespace DDLGen

/-- Python `needle in hay` (substring containment), by scanning every suffix. -/
def subLoop (n : List Char) : List Char → Bool
  | [] => n.isEmpty
  | c :: cs => n.isPrefixOf (c :: cs) || subLoop n cs

/-- Python `needle in hay` on strings. -/
def containsSub (needle hay : String) : Bool :=
  subLoop needle.toList hay.toList

/-- Numeric value of a run of decimal digit characters (Python `int(...)` on the
digits captured by the regex group). -/
def digitsVal (ds : List Char) : Nat :=
  ds.foldl (fun acc c => acc * 10 + (c.toNat - 48)) 0

/-- Leftmost match of the Python regex `\((\d+)\)` (`re.search`): scan for a
`(`, take the maximal digit run after it, and require the next character to be
`)`.  (Backtracking on the greedy `\d+` can never help: a shorter digit run is
followed by a digit, not `)`.) -/
def scanParen : List Char → Option Nat
  | [] => none
  | c :: rest =>
    if c = '(' then
      let ds := rest.takeWhile Char.isDigit
      if ds.isEmpty then scanParen rest
      else
        match (rest.dropWhile Char.isDigit).head? with
        | some cc => if cc = ')' then some (digitsVal ds) else scanParen rest
        | none => scanParen rest
    else scanParen rest

/-- `re.search(r'\((\d+)\)', s)` returning the captured length, as used by
`compare_schemas` on type strings such as `VARCHAR(64)`. -/
def varcharLen (s : String) : Option Nat :=
  scanParen s.toList

/-- Verdict of the per-column body of the `compare_schemas` loop:
`reject` models the early `return False`, `widen` models setting
`has_larger_type = True` (and `all_equal = False`), `same` models `continue`. -/
inductive ColVerdict where
  | reject
  | widen
  | same
  deriving DecidableEq, Repr

/-- Per-column comparison of `compare_schemas` (lines 166-204 of
`generate_snowflake_ddl.py`), with the same branch order as the Python `elif`
chain.  A bare `VARCHAR` (no parenthesized length) gets length 16777216. -/
def classifyCol (old_type new_type : String) : ColVerdict :=
  if containsSub "VARCHAR" old_type && containsSub "VARCHAR" new_type then
    let old_len := (varcharLen old_type).getD 16777216
    let new_len := (varcharLen new_type).getD 16777216
    if new_len < old_len then .reject
    else if old_len < new_len then .widen
    else .same
  else if old_type = "INTEGER" && new_type = "FLOAT" then .widen
  else if old_type = "FLOAT" && new_type = "INTEGER" then .reject
  else if old_type = "DATE" && new_type = "TIMESTAMP" then .widen
  else if old_type = "TIMESTAMP" && new_type = "DATE" then .reject
  else if old_type ≠ new_type then .reject
  else .same

/-- Python dict comprehension `{col: typ for col, typ in schema}`: on duplicate
keys the last pair wins, so look the key up in the reversed list. -/
def dictLookup (l : List (String × String)) (c : String) : Option String :=
  List.lookup c l.reverse

/-- The type a schema's dict maps a column name to (total version; only applied
to columns known to be present, mirroring Python's `old_dict[col]`). -/
def dictType (l : List (String × String)) (c : String) : String :=
  (dictLookup l c).getD ""

/-- The columns iterated by `compare_schemas`:
`common_cols = set(old_dict.keys()) & set(new_dict.keys())`.  Modelled as the
old schema's column names filtered to those also in the new schema.  Duplicate
names may remain in this list where the Python set has one element; this is
harmless: the loop's outcome depends only on which names are members (each
occurrence is classified identically), and the list is empty exactly when the
set is. -/
def commonColsL (new_schema old_schema : List (String × String)) : List String :=
  (old_schema.map Prod.fst).filter (fun c => (new_schema.map Prod.fst).contains c)

/-- The `for col in common_cols` loop of `compare_schemas`, carrying the
`has_larger_type` and `all_equal` flags, followed by the final
`if all_equal and not has_larger_type: return False / return True`. -/
def compareLoop (od nd : String → String) : List String → Bool → Bool → Bool
  | [], hasLarger, allEqual => if allEqual && !hasLarger then false else true
  | c :: cs, hasLarger, allEqual =>
    match classifyCol (od c) (nd c) with
    | .reject => false
    | .widen => compareLoop od nd cs true false
    | .same => compareLoop od nd cs hasLarger allEqual

/-- `compare_schemas(new_schema, old_schema)` (lines 149-211): `True` means
"replace with new", `False` means "keep old". -/
def compare_schemas (new_schema old_schema : List (String × String)) : Bool :=
  if old_schema.isEmpty then true
  else
    let common := commonColsL new_schema old_schema
    if common.isEmpty then true
    else compareLoop (dictType old_schema) (dictType new_schema) common false true

/-- Bool test for the `reject` verdict. -/
def isRejectV : ColVerdict → Bool
  | .reject => true
  | _ => false

/-- Bool test for the `widen` verdict. -/
def isWidenV : ColVerdict → Bool
  | .widen => true
  | _ => false

theorem isRejectV_eq_true {v : ColVerdict} : isRejectV v = true ↔ v = .reject := by
  cases v <;> simp [isRejectV]

theorem isWidenV_eq_true {v : ColVerdict} : isWidenV v = true ↔ v = .widen := by
  cases v <;> simp [isWidenV]

/-- Extensional description of the comparison loop: it answers `false` when
some column classifies as `reject`, otherwise `true` exactly when the
`has_larger_type` flag is or becomes set.  (Stated for the reachable flag
states, where `all_equal` is the negation of `has_larger_type`.) -/
theorem compareLoop_spec (od nd : String → String) (l : List String) :
    ∀ h : Bool,
      compareLoop od nd l h (!h) =
        (!(l.any fun c => isRejectV (classifyCol (od c) (nd c))) &&
          (h || l.any fun c => isWidenV (classifyCol (od c) (nd c)))) := by
  induction l with
  | nil => intro h; cases h <;> simp [compareLoop]
  | cons c cs ih =>
    intro h
    simp only [compareLoop, List.any_cons]
    cases hc : classifyCol (od c) (nd c) with
    | reject => simp [hc, isRejectV]
    | widen =>
      have h1 := ih true
      simp only [Bool.not_true] at h1
      rw [h1]
      simp [hc, isRejectV, isWidenV]
    | same =>
      rw [ih h]
      simp [hc, isRejectV, isWidenV]

theorem compare_schemas_spec (ns os : List (String × String)) (h1 : os ≠ [])
    (h2 : commonColsL ns os ≠ []) :
    compare_schemas ns os =
      (!((commonColsL ns os).any fun c =>
          isRejectV (classifyCol (dictType os c) (dictType ns c))) &&
        ((commonColsL ns os).any fun c =>
          isWidenV (classifyCol (dictType os c) (dictType ns c)))) := by
  unfold compare_schemas
  rw [if_neg (by simpa using h1), if_neg (by simpa using h2)]
  have h3 := compareLoop_spec (dictType os) (dictType ns) (commonColsL ns os) false
  simpa using h3

/-- A column compared with itself is classified as unchanged. -/
theorem classifyCol_refl (t : String) : classifyCol t t = .same := by
  unfold classifyCol
  by_cases hv : containsSub "VARCHAR" t
  · simp [hv]
  · have h1 : ¬(t = "INTEGER" ∧ t = "FLOAT") := by
      rintro ⟨rfl, hh⟩; exact absurd hh (by decide)
    have h2 : ¬(t = "FLOAT" ∧ t = "INTEGER") := by
      rintro ⟨rfl, hh⟩; exact absurd hh (by decide)
    have h3 : ¬(t = "DATE" ∧ t = "TIMESTAMP") := by
      rintro ⟨rfl, hh⟩; exact absurd hh (by decide)
    have h4 : ¬(t = "TIMESTAMP" ∧ t = "DATE") := by
      rintro ⟨rfl, hh⟩; exact absurd hh (by decide)
    simp [hv, h1, h2, h3, h4]

theorem commonColsL_self (s : List (String × String)) :
    commonColsL s s = s.map Prod.fst := by
  unfold commonColsL
  apply List.filter_eq_self.mpr
  intro a ha
  simpa using ha

theorem lookup_some_mem {l : List (String × String)} {c v : String}
    (h : List.lookup c l = some v) : c ∈ l.map Prod.fst := by
  induction l with
  | nil => simp [List.lookup] at h
  | cons p t ih =>
    rw [List.lookup] at h
    simp only [List.map_cons, List.mem_cons]
    cases hcp : c == p.1 with
    | false =>
      simp only [hcp] at h
      exact Or.inr (ih h)
    | true => exact Or.inl (eq_of_beq hcp)

theorem dictLookup_some_mem {l : List (String × String)} {c v : String}
    (h : dictLookup l c = some v) : c ∈ l.map Prod.fst := by
  have h1 := lookup_some_mem h
  rw [List.map_reverse] at h1
  exact List.mem_reverse.mp h1

theorem mem_commonColsL {ns os : List (String × String)} {c : String}
    (ho : c ∈ os.map Prod.fst) (hn : c ∈ ns.map Prod.fst) :
    c ∈ commonColsL ns os := by
  unfold commonColsL
  rw [List.mem_filter]
  exact ⟨ho, by simpa using hn⟩

theorem dictType_eq {l : List (String × String)} {c v : String}
    (h : dictLookup l c = some v) : dictType l c = v := by
  simp [dictType, h]

/-- Any shared column whose types classify as `reject` forces
`compare_schemas` to keep the old schema. -/
theorem compare_false_of_reject {ns os : List (String × String)} {c ot nt : String}
    (ho : dictLookup os c = some ot) (hn : dictLookup ns c = some nt)
    (hr : classifyCol ot nt = .reject) : compare_schemas ns os = false := by
  have hmo := dictLookup_some_mem ho
  have hmn := dictLookup_some_mem hn
  have hcm := mem_commonColsL hmo hmn
  have hos : os ≠ [] := by
    intro h; subst h; simp at hmo
  rw [compare_schemas_spec ns os hos (List.ne_nil_of_mem hcm)]
  have hany : ((commonColsL ns os).any fun c =>
      isRejectV (classifyCol (dictType os c) (dictType ns c))) = true := by
    rw [List.any_eq_true]
    exact ⟨c, hcm, by rw [dictType_eq ho, dictType_eq hn, hr]; rfl⟩
  rw [hany]
  rfl

/-- C1 counterexample: the claim asserts `shouldReplace(S, S) == false` for
every schema `S`, but on the empty schema the code takes the
"old schema empty" branch and returns `true`. -/
theorem compare_schemas_empty_self :
    compare_schemas ([] : List (String × String)) [] = true := by decide

/-- C1 (amended to non-empty `S`): `compare_schemas` returns `true` when the
old schema is empty or when no column name is shared; otherwise any shared
column classified as a reject pair forces `false`; when no shared column is a
reject pair the result is `true` exactly when at least one shared column was
strictly widened — so if every shared column is unchanged the result is
`false`, and in particular `compare_schemas S S = false` for every non-empty
schema `S` (the empty schema instead hits the "old is empty" rule). -/
theorem compare_schemas_verdict (ns os : List (String × String)) :
    (os = [] → compare_schemas ns os = true) ∧
    (commonColsL ns os = [] → compare_schemas ns os = true) ∧
    ((∃ c ∈ commonColsL ns os,
        classifyCol (dictType os c) (dictType ns c) = .reject) →
      compare_schemas ns os = false) ∧
    (os ≠ [] → commonColsL ns os ≠ [] →
      (∀ c ∈ commonColsL ns os,
        classifyCol (dictType os c) (dictType ns c) ≠ .reject) →
      (compare_schemas ns os = true ↔
        ∃ c ∈ commonColsL ns os,
          classifyCol (dictType os c) (dictType ns c) = .widen)) ∧
    (ns ≠ [] → compare_schemas ns ns = false) := by
  refine ⟨?_, ?_, ?_, ?_, ?_⟩
  · intro h
    subst h
    rfl
  · intro h
    unfold compare_schemas
    by_cases ho : os = []
    · simp [ho]
    · simp [ho, h]
  · rintro ⟨c, hcm, hr⟩
    have hos : os ≠ [] := by
      intro h
      subst h
      simp [commonColsL] at hcm
    rw [compare_schemas_spec ns os hos (List.ne_nil_of_mem hcm)]
    have hany : ((commonColsL ns os).any fun c =>
        isRejectV (classifyCol (dictType os c) (dictType ns c))) = true :=
      List.any_eq_true.mpr ⟨c, hcm, isRejectV_eq_true.mpr hr⟩
    rw [hany]
    rfl
  · intro hos hcm hno
    rw [compare_schemas_spec ns os hos hcm]
    have hnone : ((commonColsL ns os).any fun c =>
        isRejectV (classifyCol (dictType os c) (dictType ns c))) = false := by
      rw [List.any_eq_false]
      intro c hc
      simp only [isRejectV_eq_true]
      exact hno c hc
    rw [hnone]
    simp [List.any_eq_true, isWidenV_eq_true]
  · intro hns
    have hmap : ns.map Prod.fst ≠ [] := by simpa using hns
    have hcm : commonColsL ns ns ≠ [] := by rw [commonColsL_self]; exact hmap
    rw [compare_schemas_spec ns ns hns hcm]
    have h1 : ((commonColsL ns ns).any fun c =>
        isRejectV (classifyCol (dictType ns c) (dictType ns c))) = false := by
      rw [List.any_eq_false]
      intro c _
      rw [classifyCol_refl]
      simp [isRejectV]
    have h2 : ((commonColsL ns ns).any fun c =>
        isWidenV (classifyCol (dictType ns c) (dictType ns c))) = false := by
      rw [List.any_eq_false]
      intro c _
      rw [classifyCol_refl]
      simp [isWidenV]
    rw [h1, h2]
    rfl

theorem compare_schemas_verdict_witness :
    compare_schemas [("A", "INTEGER")] [("A", "INTEGER")] = false :=
  (compare_schemas_verdict [("A", "INTEGER")] [("A", "INTEGER")]).2.2.2.2
    (by decide)

/-- C2: if some column shared by the two schemas has `VARCHAR` types on both
sides, with the new length strictly smaller than the old one, then
`compare_schemas` returns `false` no matter what the other columns do and in
which order the columns are examined (the statement constrains only the shared
column). -/
theorem compare_schemas_never_narrows_varchar
    (ns os : List (String × String)) (c ot nt : String) (a b : Nat)
    (ho : dictLookup os c = some ot) (hn : dictLookup ns c = some nt)
    (hov : containsSub "VARCHAR" ot = true) (hnv : containsSub "VARCHAR" nt = true)
    (hoa : varcharLen ot = some a) (hnb : varcharLen nt = some b) (hba : b < a) :
    compare_schemas ns os = false := by
  apply compare_false_of_reject ho hn
  unfold classifyCol
  simp [hov, hnv, hoa, hnb, hba]

theorem compare_schemas_never_narrows_varchar_witness :
    compare_schemas [("X", "VARCHAR(5)"), ("Y", "TIMESTAMP")]
      [("X", "VARCHAR(10)"), ("Z", "DATE")] = false :=
  compare_schemas_never_narrows_varchar _ _ "X" "VARCHAR(10)" "VARCHAR(5)" 10 5
    (by decide) (by decide) (by decide) (by decide) (by decide) (by decide)
    (by decide)

/-- C10: in the Evolution Guard a `VARCHAR` type string with no parenthesized
length is given length 16777216: against an old `VARCHAR(a)` with
`a < 16777216` a bare new `VARCHAR` classifies as a strict widening, and an
old bare `VARCHAR` against a new `VARCHAR(b)` with `b < 16777216` is a
narrowing that forces `compare_schemas` to `false`. -/
theorem compare_schemas_bare_varchar
    (ot1 nt1 : String) (a : Nat)
    (ns os : List (String × String)) (c ot2 nt2 : String) (b : Nat) :
    (containsSub "VARCHAR" ot1 = true → varcharLen ot1 = some a →
      a < 16777216 →
      containsSub "VARCHAR" nt1 = true → varcharLen nt1 = none →
      classifyCol ot1 nt1 = .widen) ∧
    (dictLookup os c = some ot2 → dictLookup ns c = some nt2 →
      containsSub "VARCHAR" ot2 = true → varcharLen ot2 = none →
      containsSub "VARCHAR" nt2 = true → varcharLen nt2 = some b →
      b < 16777216 →
      compare_schemas ns os = false) := by
  constructor
  · intro h1 h2 h3 h4 h5
    have hlt : ¬(16777216 < a) := by omega
    unfold classifyCol
    simp [h1, h2, h4, h5, hlt, h3]
  · intro k1 k2 k3 k4 k5 k6 k7
    apply compare_false_of_reject k1 k2
    unfold classifyCol
    simp [k3, k4, k5, k6, k7]

theorem compare_schemas_bare_varchar_witness :
    classifyCol "VARCHAR(10)" "VARCHAR" = .widen ∧
      compare_schemas [("X", "VARCHAR(5)")] [("X", "VARCHAR")] = false := by
  have h := compare_schemas_bare_varchar "VARCHAR(10)" "VARCHAR" 10
    [("X", "VARCHAR(5)")] [("X", "VARCHAR")] "X" "VARCHAR" "VARCHAR(5)" 5
  exact ⟨h.1 (by decide) (by decide) (by decide) (by decide) (by decide),
    h.2 (by decide) (by decide) (by decide) (by decide) (by decide) (by decide)
      (by decide)⟩

/-- `get_varchar_length(max_length, tiers, default)` (lines 91-98):
`None` (the all-null case) yields the default; otherwise the first tier that
is at least the observed maximum is returned (`for tier in tiers`), falling
back to `tiers[-1]`.  The result is `none` only where Python would raise an
`IndexError` (`tiers[-1]` on an empty list). -/
def get_varchar_length (max_length : Option Nat) (tiers : List Nat)
    (default : Nat) : Option Nat :=
  match max_length with
  | none => some default
  | some m =>
    match tiers.find? (fun t => m ≤ t) with
    | some t => some t
    | none => tiers.getLast?

example : get_varchar_length (some 5) [4, 16, 256] 16 = some 16 := by decide
example : get_varchar_length (some 4) [4, 16, 256] 16 = some 4 := by decide
example : get_varchar_length (some 300) [4, 16, 256] 16 = some 256 := by decide
example : get_varchar_length none [4, 16, 256] 42 = some 42 := by decide

theorem sorted_find_min :
    ∀ (l : List Nat), List.Sorted (· ≤ ·) l → ∀ (m t0 : Nat),
      l.find? (fun t => m ≤ t) = some t0 →
      t0 ∈ l ∧ m ≤ t0 ∧ ∀ u ∈ l, m ≤ u → t0 ≤ u := by
  intro l
  induction l with
  | nil => intro _ m t0 h; simp at h
  | cons a as ih =>
    intro hs m t0 h
    obtain ⟨ha, has⟩ := List.sorted_cons.mp hs
    rw [List.find?] at h
    cases hpa : (decide (m ≤ a)) with
    | true =>
      simp only [hpa] at h
      injection h with h
      subst h
      refine ⟨List.mem_cons_self _ _, of_decide_eq_true hpa, ?_⟩
      intro u hu _
      rcases List.mem_cons.mp hu with rfl | hu'
      · exact le_refl _
      · exact ha u hu'
    | false =>
      simp only [hpa] at h
      obtain ⟨hmem, hle, hmin⟩ := ih has m t0 h
      refine ⟨List.mem_cons_of_mem _ hmem, hle, ?_⟩
      intro u hu hmu
      rcases List.mem_cons.mp hu with rfl | hu'
      · exact absurd hmu (of_decide_eq_false hpa)
      · exact hmin u hu' hmu

theorem sorted_getLast_max :
    ∀ (l : List Nat), List.Sorted (· ≤ ·) l → ∀ (L : Nat),
      l.getLast? = some L → L ∈ l ∧ ∀ t ∈ l, t ≤ L := by
  intro l
  induction l with
  | nil => intro _ L h; simp at h
  | cons a as ih =>
    intro hs L h
    cases as with
    | nil =>
      simp only [List.getLast?_singleton, Option.some.injEq] at h
      subst h
      exact ⟨List.mem_singleton_self _, by intro t ht; rw [List.mem_singleton.mp ht]⟩
    | cons b bs =>
      rw [List.getLast?_cons_cons] at h
      obtain ⟨ha, has⟩ := List.sorted_cons.mp hs
      obtain ⟨hmem, hmax⟩ := ih has L h
      refine ⟨List.mem_cons_of_mem _ hmem, ?_⟩
      intro t ht
      rcases List.mem_cons.mp ht with rfl | ht'
      · exact ha L hmem
      · exact hmax t ht'

/-- C3: for every non-empty ascending tier list and every default,
`get_varchar_length` returns the default when the observed maximum is absent,
the smallest tier at least the observed maximum when one exists, and the
largest tier otherwise. -/
theorem get_varchar_length_correct (tiers : List Nat) (default m : Nat)
    (hne : tiers ≠ []) (hsort : List.Sorted (· ≤ ·) tiers) :
    get_varchar_length none tiers default = some default ∧
    ((∃ t ∈ tiers, m ≤ t) →
      ∃ t, get_varchar_length (some m) tiers default = some t ∧ t ∈ tiers ∧
        m ≤ t ∧ ∀ u ∈ tiers, m ≤ u → t ≤ u) ∧
    ((∀ t ∈ tiers, t < m) →
      ∃ L, get_varchar_length (some m) tiers default = some L ∧ L ∈ tiers ∧
        ∀ t ∈ tiers, t ≤ L) := by
  refine ⟨rfl, ?_, ?_⟩
  · rintro ⟨t, ht, hmt⟩
    cases hf : tiers.find? (fun t => m ≤ t) with
    | none =>
      exfalso
      have := List.find?_eq_none.mp hf t ht
      simp at this
      omega
    | some t0 =>
      obtain ⟨hmem, hle, hmin⟩ := sorted_find_min tiers hsort m t0 hf
      exact ⟨t0, by simp [get_varchar_length, hf], hmem, hle, hmin⟩
  · intro hall
    have hf : tiers.find? (fun t => m ≤ t) = none := by
      rw [List.find?_eq_none]
      intro x hx
      have := hall x hx
      simp
      omega
    obtain ⟨L, hL⟩ : ∃ L, tiers.getLast? = some L := by
      cases tiers with
      | nil => exact absurd rfl hne
      | cons a as => exact ⟨_, rfl⟩
    obtain ⟨hmem, hmax⟩ := sorted_getLast_max tiers hsort L hL
    exact ⟨L, by simp [get_varchar_length, hf, hL], hmem, hmax⟩

theorem get_varchar_length_correct_witness :
    get_varchar_length none [4, 16, 256] 16 = some 16 ∧
      (∃ t, get_varchar_length (some 5) [4, 16, 256] 16 = some t ∧
        t ∈ [4, 16, 256] ∧ 5 ≤ t ∧ ∀ u ∈ [4, 16, 256], 5 ≤ u → t ≤ u) := by
  have h := get_varchar_length_correct [4, 16, 256] 16 5 (by decide)
    (by decide)
  exact ⟨h.1, h.2.1 ⟨16, by decide, by decide⟩⟩

/-- `re.sub(r'[^a-zA-Z0-9]', '_', col)`: every character outside
`[A-Za-z0-9]` is replaced by one underscore of its own. -/
def sanitized (l : List Char) : List Char :=
  l.map fun c => if c.isAlphanum then c else '_'

/-- Python `.upper()`.  Applied only to output of `sanitized`, which is pure
ASCII (`[a-zA-Z0-9_]`), where `Char.toUpper` agrees with Python. -/
def upperList (l : List Char) : List Char :=
  l.map Char.toUpper

/-- Python `.strip('_')`: drop leading underscores, then trailing ones. -/
def stripU (l : List Char) : List Char :=
  ((l.dropWhile (· == '_')).reverse.dropWhile (· == '_')).reverse

/-- Column-name normalization of `infer_schema` (lines 241-244):
`re.sub(r'[^a-zA-Z0-9]', '_', col).upper().strip('_')`, then prefix `COL_`
when the result does not start with a letter, or fall back to
`COL_<position>` when the result is empty.  (`col_name[0].isalpha()` only
ever sees characters in `[A-Z0-9_]`, where `Char.isAlpha` agrees with
Python.) -/
def normalize (raw : String) (position : Nat) : String :=
  match stripU (upperList (sanitized raw.toList)) with
  | [] => "COL_" ++ Nat.repr position
  | c :: cs =>
    if c.isAlpha then String.mk (c :: cs) else "COL_" ++ String.mk (c :: cs)

example : normalize "a--b" 0 = "A__B" := by decide
example : normalize "" 3 = "COL_3" := by decide
example : normalize "--" 2 = "COL_2" := by decide
example : normalize "123x" 0 = "COL_123X" := by decide
example : normalize "__mixed-Case__" 0 = "MIXED_CASE" := by decide

/-- C4 counterexample: the claim says every maximal run of characters outside
`[A-Za-z0-9]` becomes a single underscore, so `"a--b"` would normalize to
`A_B`; the code replaces each such character with its own underscore and
produces `A__B`. -/
theorem normalize_run_counterexample :
    normalize "a--b" 0 = "A__B" ∧ normalize "a--b" 0 ≠ "A_B" := by decide

/-- Amended per-character cleaning fused with uppercasing. -/
def amendedClean (l : List Char) : List Char :=
  l.map fun c => if c.isAlphanum then c.toUpper else '_'

/-- Recursive removal of trailing underscores (for the amended statement of
the stripping step). -/
def dropTrailingU : List Char → List Char
  | [] => []
  | c :: cs =>
    match dropTrailingU cs with
    | [] => if c == '_' then [] else [c]
    | r => c :: r

/-- Removal of leading underscores. -/
def dropLeadingU (l : List Char) : List Char :=
  l.dropWhile (· == '_')

/-- C4 (amended) normalization, stated independently: replace every character
outside `[A-Za-z0-9]` with one underscore each and uppercase in a single
pass; strip leading then trailing underscores; prefix `COL_` when the result
does not start with a letter; fall back to `COL_<position>` when empty. -/
def normalizeAmended (raw : String) (position : Nat) : String :=
  match dropTrailingU (dropLeadingU (amendedClean raw.toList)) with
  | [] => "COL_" ++ Nat.repr position
  | c :: cs =>
    if c.isAlpha then String.mk (c :: cs) else "COL_" ++ String.mk (c :: cs)

theorem dropTrailingU_eq (l : List Char) :
    dropTrailingU l = (l.reverse.dropWhile (· == '_')).reverse := by
  induction l with
  | nil => rfl
  | cons c cs ih =>
    rw [dropTrailingU, ih, List.reverse_cons, List.dropWhile_append]
    cases hcs : (cs.reverse.dropWhile (· == '_')) with
    | nil =>
      simp only [List.reverse_nil, List.isEmpty_nil, if_true]
      cases hc : (c == '_') with
      | true => simp [List.dropWhile, hc]
      | false => simp [List.dropWhile, hc]
    | cons d ds =>
      have hee : ∃ e es, ds.reverse ++ [d] = e :: es := by
        cases h : ds.reverse ++ [d] with
        | nil => exact absurd h (by simp)
        | cons e es => exact ⟨e, es, rfl⟩
      obtain ⟨e, es, hee⟩ := hee
      simp only [List.isEmpty_cons, Bool.false_eq_true, if_false,
        List.reverse_cons, List.reverse_append, List.reverse_nil,
        List.nil_append, List.singleton_append, List.cons_append]
      rw [hee]

/-- C4 (amended): the normalizer replaces every character outside
`[A-Za-z0-9]` with one underscore of its own (not one per maximal run),
uppercases, strips leading/trailing underscores, prefixes `COL_` when the
result does not start with a letter, and falls back to `COL_<position>` when
the result is empty — i.e. `normalize` agrees everywhere with the
independently stated `normalizeAmended`. -/
theorem normalize_amended_correct (raw : String) (position : Nat) :
    normalize raw position = normalizeAmended raw position := by
  have hclean : upperList (sanitized raw.toList) = amendedClean raw.toList := by
    unfold upperList sanitized amendedClean
    rw [List.map_map]
    apply List.map_congr_left
    intro c _
    by_cases h : c.isAlphanum
    · simp [h, Function.comp]
    · simp [h, Function.comp]
  have hstrip : stripU (amendedClean raw.toList)
      = dropTrailingU (dropLeadingU (amendedClean raw.toList)) := by
    unfold stripU dropLeadingU
    rw [dropTrailingU_eq]
  unfold normalize normalizeAmended
  rw [hclean, hstrip]

/-- The `for fmt in formats` loop of `is_date_or_timestamp`:
`pd.to_datetime(sample, format=fmt, errors='raise')` succeeds iff every
sampled value parses under `fmt` — the library call is abstracted by the
`parses` oracle; a failure (`ValueError`) moves on to the next format.  The
code distinguishes `DATE` from `TIMESTAMP` by whether the characters `H` or
`M` occur in the format string (`'H' in fmt` is one-character substring
containment). -/
def dtLoop (parses : String → String → Bool) (sample : List String) :
    List String → Option String
  | [] => none
  | fmt :: rest =>
    if sample.all (fun v => parses v fmt) then
      some (if !(containsSub "H" fmt) && !(containsSub "M" fmt) then "DATE"
        else "TIMESTAMP")
    else dtLoop parses sample rest

/-- `is_date_or_timestamp(series, formats)` (lines 101-115):
`series.dropna().astype(str).head(100)` is the first 100 non-null values
(cells are modelled as their string views, `none` = null/NaN); an empty
sample yields `None`. -/
def is_date_or_timestamp (parses : String → String → Bool)
    (cells : List (Option String)) (formats : List String) : Option String :=
  let sample := (cells.filterMap id).take 100
  if sample.isEmpty then none
  else dtLoop parses sample formats

theorem dtLoop_find (parses : String → String → Bool) (sample : List String) :
    ∀ formats : List String,
      dtLoop parses sample formats =
        match formats.find? (fun fmt => sample.all fun v => parses v fmt) with
        | some fmt =>
          some (if !(containsSub "H" fmt) && !(containsSub "M" fmt) then "DATE"
            else "TIMESTAMP")
        | none => none := by
  intro formats
  induction formats with
  | nil => rfl
  | cons fmt rest ih =>
    rw [dtLoop, List.find?]
    cases hp : (sample.all fun v => parses v fmt) with
    | true => simp [hp]
    | false => simp [hp, ih]

/-- C5: for a column with at least one non-null value, date/timestamp
detection looks at no more than the first 100 non-null values, tries the
patterns of `date_formats ++ timestamp_formats` in order, and the first
pattern under which every examined value parses wins, yielding `DATE` exactly
when the characters `H` and `M` are absent from the format string and
`TIMESTAMP` otherwise; the outcome depends only on those first 100 non-null
values. -/
theorem is_date_or_timestamp_spec (parses : String → String → Bool)
    (cells cells2 : List (Option String)) (dfs tfs : List String)
    (hnn : cells.filterMap id ≠ []) :
    (is_date_or_timestamp parses cells (dfs ++ tfs) =
      match (dfs ++ tfs).find?
          (fun fmt =>
            ((cells.filterMap id).take 100).all fun v => parses v fmt) with
      | some fmt =>
        some (if !(containsSub "H" fmt) && !(containsSub "M" fmt) then "DATE"
          else "TIMESTAMP")
      | none => none) ∧
    ((cells.filterMap id).take 100 = (cells2.filterMap id).take 100 →
      is_date_or_timestamp parses cells (dfs ++ tfs) =
        is_date_or_timestamp parses cells2 (dfs ++ tfs)) := by
  constructor
  · obtain ⟨x, xs, hx⟩ := List.exists_cons_of_ne_nil hnn
    have hs : ((cells.filterMap id).take 100).isEmpty = false := by
      rw [hx]
      rfl
    simp only [is_date_or_timestamp, hs, Bool.false_eq_true, if_false]
    exact dtLoop_find parses _ _
  · intro h
    simp only [is_date_or_timestamp]
    rw [h]

theorem is_date_or_timestamp_spec_witness :
    is_date_or_timestamp (fun _ _ => true) [some "2024-01-02"]
        (["%Y-%m-%d"] ++ ["%Y-%m-%d %H:%M"]) = some "DATE" ∧
      is_date_or_timestamp (fun _ _ => true) [some "2024-01-02"]
          (["%Y-%m-%d"] ++ ["%Y-%m-%d %H:%M"]) =
        is_date_or_timestamp (fun _ _ => true) [some "2024-01-02", none]
          (["%Y-%m-%d"] ++ ["%Y-%m-%d %H:%M"]) := by
  have h := is_date_or_timestamp_spec (fun _ _ => true) [some "2024-01-02"]
    [some "2024-01-02", none] ["%Y-%m-%d"] ["%Y-%m-%d %H:%M"] (by decide)
  exact ⟨h.1.trans (by decide), h.2 (by decide)⟩

/-- Dtype kind pandas infers for a parsed column
(`is_integer_dtype` / `is_float_dtype` / `is_bool_dtype` / other); the
library inference is abstracted as a parameter of the embedding. -/
inductive PDType where
  | tInt
  | tFloat
  | tBool
  | tObj

/-- The configuration fields `infer_schema` reads (well-typed view of a
loaded `DDLConfig`; `usecols` selection happens in `pd.read_csv`, so the
embedded sampler below receives the already-selected headers). -/
structure InferConfig where
  default_string_length : Nat
  varchar_tiers : List Nat
  date_formats : List String
  timestamp_formats : List String

/-- One row of the sample: a cell per column, `none` = null/NaN, values as
their string views. -/
abbrev SRow := List (Option String)

/-- Column `j` of the in-memory sample. -/
def colCells (rows : List SRow) (j : Nat) : List (Option String) :=
  rows.map fun r => List.getD r j none

/-- Split the capped row list into reader chunks of `chunkSize`.  `n = 0`
cannot arise: `main` exits early unless `chunk_size > 0`. -/
def chunkList (n : Nat) (l : List SRow) : List (List SRow) :=
  if l = [] ∨ n = 0 then [] else l.take n :: chunkList n (l.drop n)
termination_by l.length
decreasing_by
  rename_i h
  push_neg at h
  have h1 : l.length ≠ 0 := by
    intro hh
    exact h.1 (List.length_eq_zero.mp hh)
  have h2 : 0 < n := Nat.pos_of_ne_zero h.2
  simp only [List.length_drop]
  omega

/-- The chunked `pd.read_csv(..., nrows=sample_rows, chunksize=chunk_size)`
reader: `nrows` caps the total number of data rows; a source whose data
portion is empty still yields exactly one empty chunk carrying the headers
(the parser's first-chunk handling returns an empty frame with columns
instead of raising `StopIteration`). -/
def readerChunks (rows : List SRow) (sampleRows chunkSize : Nat) :
    List (List SRow) :=
  let capped := rows.take sampleRows
  if capped.isEmpty then [[]] else chunkList chunkSize capped

/-- The accumulation loop of `infer_schema` (lines 233-237): append each
chunk, breaking once `sample_rows` rows have been read. -/
def accumLoop (sampleRows : Nat) (acc : Nat) :
    List (List SRow) → List (List SRow)
  | [] => []
  | ch :: rest =>
    if sampleRows ≤ acc + ch.length then [ch]
    else ch :: accumLoop sampleRows (acc + ch.length) rest

/-- Per-column type choice of `infer_schema` (lines 246-261).  The final
`get_varchar_length` receives `some` of the max string length whenever that
branch is reached (the all-null test failed, so `dropna()` is non-empty); the
`error` leg models the `IndexError` of `tiers[-1]` on empty tiers surfacing
as the re-raised inference failure. -/
def inferColType (parses : String → String → Bool)
    (dtypeOf : List (Option String) → PDType) (config : InferConfig)
    (cells : List (Option String)) : Except String String :=
  match is_date_or_timestamp parses cells
      (config.date_formats ++ config.timestamp_formats) with
  | some t => .ok t
  | none =>
    if cells.all (fun c => c.isNone) then
      .ok ("VARCHAR(" ++ Nat.repr config.default_string_length ++ ")")
    else
      match dtypeOf cells with
      | .tInt => .ok "INTEGER"
      | .tFloat => .ok "FLOAT"
      | .tBool => .ok "BOOLEAN"
      | .tObj =>
        let maxLength := ((cells.filterMap id).map String.length).max?
        match get_varchar_length maxLength config.varchar_tiers
            config.default_string_length with
        | some n => .ok ("VARCHAR(" ++ Nat.repr n ++ ")")
        | none => .error "Failed to infer schema"

/-- The `for col in df.columns` loop of `infer_schema`: name each column by
its zero-based position and infer its type. -/
def inferCols (parses : String → String → Bool)
    (dtypeOf : List (Option String) → PDType) (config : InferConfig) :
    List String → List SRow → Nat → Except String (List (String × String))
  | [], _, _ => .ok []
  | h :: hs, rows, idx =>
    match inferColType parses dtypeOf config (colCells rows idx) with
    | .error e => .error e
    | .ok t =>
      match inferCols parses dtypeOf config hs rows (idx + 1) with
      | .error e => .error e
      | .ok rest => .ok ((normalize h idx, t) :: rest)

/-- `infer_schema(file_path, sample_rows, chunk_size, config)`
(lines 214-272), over a source already decoded into a header list and data
rows (the selected columns): read chunks, concatenate
(`pd.concat` raises on an empty chunk list), truncate to `sample_rows`,
then infer a `(name, type)` pair per column; zero inferred columns is an
error. -/
def infer_schema (parses : String → String → Bool)
    (dtypeOf : List (Option String) → PDType) (headers : List String)
    (rows : List SRow) (sample_rows chunk_size : Nat) (config : InferConfig) :
    Except String (List (String × String)) :=
  let chunks := accumLoop sample_rows 0 (readerChunks rows sample_rows chunk_size)
  if chunks.isEmpty then
    .error "Failed to infer schema: No objects to concatenate"
  else
    match inferCols parses dtypeOf config headers ((chunks.flatten).take sample_rows) 0 with
    | .error e => .error e
    | .ok schema =>
      if schema.isEmpty then
        .error "Failed to infer schema: No columns inferred from the file"
      else .ok schema

theorem inferCols_no_rows (parses : String → String → Bool)
    (dtypeOf : List (Option String) → PDType) (config : InferConfig) :
    ∀ (headers : List String) (idx : Nat),
      inferCols parses dtypeOf config headers [] idx =
        .ok ((headers.enumFrom idx).map fun p =>
          (normalize p.2 p.1,
            "VARCHAR(" ++ Nat.repr config.default_string_length ++ ")")) := by
  intro headers
  induction headers with
  | nil => intro idx; rfl
  | cons h hs ih =>
    intro idx
    rw [inferCols]
    have hcol : inferColType parses dtypeOf config (colCells [] idx) =
        .ok ("VARCHAR(" ++ Nat.repr config.default_string_length ++ ")") := rfl
    rw [hcol, ih (idx + 1)]
    rfl

/-- C6: on a source with a header row but zero data rows, sampling produces
the headers with no rows and `infer_schema` still succeeds, typing every
selected column through the all-null path as
`VARCHAR(default_string_length)`. -/
theorem infer_schema_zero_rows (parses : String → String → Bool)
    (dtypeOf : List (Option String) → PDType) (headers : List String)
    (sample_rows chunk_size : Nat) (config : InferConfig)
    (hh : headers ≠ []) :
    infer_schema parses dtypeOf headers [] sample_rows chunk_size config =
      .ok (headers.enum.map fun p =>
        (normalize p.2 p.1,
          "VARCHAR(" ++ Nat.repr config.default_string_length ++ ")")) := by
  have hrc : readerChunks [] sample_rows chunk_size = [[]] := by
    simp [readerChunks]
  have hacc : accumLoop sample_rows 0 [([] : List SRow)] = [[]] := by
    rw [accumLoop]
    split
    · rfl
    · rfl
  unfold infer_schema
  rw [hrc, hacc]
  simp only [List.isEmpty_cons, Bool.false_eq_true, if_false]
  have hjoin : ([([] : List SRow)].flatten).take sample_rows = [] := by
    simp
  rw [hjoin, inferCols_no_rows]
  dsimp only
  have hne : ((headers.enumFrom 0).map fun p =>
      (normalize p.2 p.1,
        "VARCHAR(" ++ Nat.repr config.default_string_length ++ ")")) ≠ [] := by
    cases headers with
    | nil => exact absurd rfl hh
    | cons a as => simp [List.enumFrom]
  rw [if_neg (by simpa using hne)]
  rfl

theorem infer_schema_zero_rows_witness :
    infer_schema (fun _ _ => false) (fun _ => .tObj) ["id", "note!"] [] 1000
        10000 ⟨16, [4, 16, 256], [], []⟩ =
      .ok [("ID", "VARCHAR(16)"), ("NOTE", "VARCHAR(16)")] :=
  (infer_schema_zero_rows (fun _ _ => false) (fun _ => .tObj) ["id", "note!"]
    1000 10000 ⟨16, [4, 16, 256], [], []⟩ (by decide)).trans rfl

/-- Full match of `[A-Za-z][A-Za-z0-9_]*` (the identifier shape the spec
names for table names). -/
def identCore : List Char → Bool
  | [] => false
  | c :: cs => c.isAlpha && cs.all (fun d => d.isAlphanum || d == '_')

/-- `re.match(r"^[a-zA-Z][a-zA-Z0-9_]*$", s)` (line 277).  After the greedy
run of word characters, Python's `$` accepts at the end of the string or just
before one newline at the end of the string; backtracking the greedy star
cannot produce any other accepting position, because a shorter run leaves a
word character (never a newline) at the match point. -/
def pyMatchIdent (s : String) : Bool :=
  match s.toList with
  | [] => false
  | c :: cs =>
    c.isAlpha &&
      (let rest := cs.dropWhile (fun d => d.isAlphanum || d == '_')
       rest.isEmpty || rest == ['\n'])

/-- `generate_ddl(table_name, schema)` (lines 275-287): validate the name,
reject an empty schema, and render one `CREATE OR REPLACE TABLE` statement
with the columns in schema order. -/
def generate_ddl (table_name : String) (schema : List (String × String)) :
    Except String String :=
  if !(pyMatchIdent table_name) then
    .error ("Invalid table name: " ++ table_name)
  else if schema.isEmpty then .error "Schema is empty"
  else
    .ok ("CREATE OR REPLACE TABLE " ++ table_name ++ " (\n    " ++
      String.intercalate ",\n    " (schema.map fun p => p.1 ++ " " ++ p.2) ++
      "\n);")

example : generate_ddl "1bad" [("A", "INTEGER")]
    = .error "Invalid table name: 1bad" := rfl
example : generate_ddl "ok_name" [] = .error "Schema is empty" := rfl
example : generate_ddl "t" [("A", "INTEGER"), ("B", "FLOAT")]
    = .ok "CREATE OR REPLACE TABLE t (\n    A INTEGER,\n    B FLOAT\n);" := rfl

theorem dropWhile_append_of_all {p : Char → Bool} :
    ∀ (l r : List Char), l.all p = true →
      (l ++ r).dropWhile p = r.dropWhile p := by
  intro l r
  induction l with
  | nil => intro _; rfl
  | cons c cs ih =>
    intro h
    rw [List.all_cons, Bool.and_eq_true] at h
    obtain ⟨hc, hcs⟩ := h
    simp only [List.cons_append, List.dropWhile_cons, hc, if_true]
    exact ih hcs

/-- The regex acceptance, stated declaratively: the whole string matches
`[A-Za-z][A-Za-z0-9_]*`, or everything before one trailing newline does. -/
theorem pyMatchIdent_iff (s : String) :
    pyMatchIdent s = true ↔
      (identCore s.toList = true ∨
        ∃ m, s.toList = m ++ ['\n'] ∧ identCore m = true) := by
  rcases hl : s.toList with _ | ⟨c, cs⟩
  · constructor
    · intro h
      rw [pyMatchIdent, hl] at h
      cases h
    · rintro (h | ⟨m, hm, _⟩)
      · cases h
      · exact absurd hm (by simp)
  · rw [pyMatchIdent, hl]
    cases ha : c.isAlpha with
    | false =>
      simp only [ha, Bool.false_and, Bool.false_eq_true, false_iff]
      rintro (h | ⟨m, hm, hcore⟩)
      · simp [identCore, ha] at h
      · rcases m with _ | ⟨c2, m2⟩
        · cases hcore
        · injection hm with h1 h2
          subst h1
          simp [identCore, ha] at hcore
    | true =>
      simp only [ha, Bool.true_and]
      have hcore : identCore (c :: cs)
          = cs.all (fun d => d.isAlphanum || d == '_') := by
        rw [identCore, ha, Bool.true_and]
      constructor
      · intro h
        rcases Bool.or_eq_true_iff.mp h with he | hn
        · left
          rw [hcore]
          rw [List.isEmpty_iff, List.dropWhile_eq_nil_iff] at he
          exact List.all_eq_true.mpr fun x hx => he x hx
        · right
          have hn' : cs.dropWhile (fun d => d.isAlphanum || d == '_') = ['\n'] :=
            by simpa using hn
          refine ⟨c :: cs.takeWhile (fun d => d.isAlphanum || d == '_'), ?_, ?_⟩
          · rw [List.cons_append]
            rw [← hn']
            rw [List.takeWhile_append_dropWhile]
          · rw [identCore, ha, Bool.true_and, List.all_eq_true]
            intro x hx
            exact @List.mem_takeWhile_imp Char (fun d => d.isAlphanum || d == '_') cs x hx

      · rintro (h | ⟨m, hm, hc2⟩)
        · rw [hcore] at h
          apply Bool.or_eq_true_iff.mpr
          left
          rw [List.isEmpty_iff, List.dropWhile_eq_nil_iff]
          intro x hx
          exact List.all_eq_true.mp h x hx
        · rcases m with _ | ⟨c2, m2⟩
          · cases hc2
          · injection hm with h1 h2
            have hall : m2.all (fun d => d.isAlphanum || d == '_') = true := by
              have h3 : identCore (c2 :: m2) = true := hc2
              rw [identCore, Bool.and_eq_true] at h3
              exact h3.2
            apply Bool.or_eq_true_iff.mpr
            right
            have h2' : cs = m2 ++ ['\n'] := h2
            rw [h2', dropWhile_append_of_all m2 ['\n'] hall]
            rfl

/-- C7 counterexample: the table name `"A\n"` does not match
`[A-Za-z][A-Za-z0-9_]*`, yet `generate_ddl` accepts it (Python's `$` matches
before one trailing newline), so "`InvalidIdentifier` iff the name does not
match" fails; and on `("1bad", [])` the schema has zero columns but the raised
error is `Invalid table name`, not `Schema is empty`, so "`SchemaEmpty` iff
the schema has zero columns" also fails as stated. -/
theorem generate_ddl_counterexample :
    (identCore "A\n".toList = false ∧
      generate_ddl "A\n" [("C", "INTEGER")] =
        .ok "CREATE OR REPLACE TABLE A\n (\n    C INTEGER\n);") ∧
    generate_ddl "1bad" [] = .error "Invalid table name: 1bad" :=
  ⟨⟨by decide, rfl⟩, rfl⟩

/-- C7 (amended): `generate_ddl` raises `Invalid table name` iff the name
does not match `[A-Za-z][A-Za-z0-9_]*` either exactly or followed by one
trailing newline (Python `re` `$` semantics); for an accepted name it raises
`Schema is empty` iff the schema has zero columns, and otherwise returns
exactly one `CREATE OR REPLACE TABLE` statement listing the columns in schema
order (the schema itself is never modified). -/
theorem generate_ddl_spec (name : String) (schema : List (String × String)) :
    (generate_ddl name schema = .error ("Invalid table name: " ++ name) ↔
      ¬(identCore name.toList = true ∨
        ∃ m, name.toList = m ++ ['\n'] ∧ identCore m = true)) ∧
    ((identCore name.toList = true ∨
        ∃ m, name.toList = m ++ ['\n'] ∧ identCore m = true) →
      (generate_ddl name schema = .error "Schema is empty" ↔ schema = [])) ∧
    ((identCore name.toList = true ∨
        ∃ m, name.toList = m ++ ['\n'] ∧ identCore m = true) →
      schema ≠ [] →
      generate_ddl name schema =
        .ok ("CREATE OR REPLACE TABLE " ++ name ++ " (\n    " ++
          String.intercalate ",\n    "
            (schema.map fun p => p.1 ++ " " ++ p.2) ++ "\n);")) := by
  have hinv : ∀ s : String, "Schema is empty" ≠ "Invalid table name: " ++ s := by
    intro s h
    have h2 := congrArg (fun t => t.toList.head?) h
    simp only [String.toList, String.data_append] at h2
    cases h2
  cases hm : pyMatchIdent name with
  | false =>
    have hni : ¬(identCore name.toList = true ∨
        ∃ m, name.toList = m ++ ['\n'] ∧ identCore m = true) := by
      intro h
      rw [← pyMatchIdent_iff] at h
      rw [hm] at h
      cases h
    refine ⟨?_, fun h => absurd h hni, fun h => absurd h hni⟩
    unfold generate_ddl
    rw [hm]
    simp only [Bool.not_false, if_true, true_iff]
    exact hni
  | true =>
    have hi : identCore name.toList = true ∨
        ∃ m, name.toList = m ++ ['\n'] ∧ identCore m = true :=
      (pyMatchIdent_iff name).mp hm
    unfold generate_ddl
    rw [hm]
    simp only [Bool.not_true, Bool.false_eq_true, if_false]
    refine ⟨?_, fun _ => ?_, fun _ hs => ?_⟩
    · by_cases hs : schema = []
      · simp only [hs, List.isEmpty_nil, if_true]
        constructor
        · intro h
          injection h with h
          exact absurd h (hinv name)
        · intro h
          exact absurd hi h
      · rw [if_neg (by simpa using hs)]
        constructor
        · intro h
          cases h
        · intro h
          exact absurd hi h
    · by_cases hs : schema = []
      · simp [hs]
      · rw [if_neg (by simpa using hs)]
        constructor
        · intro h
          cases h
        · intro h
          exact absurd h hs
    · rw [if_neg (by simpa using hs)]

theorem generate_ddl_spec_witness :
    generate_ddl "tbl_1" [("A", "INTEGER"), ("B", "VARCHAR(4)")] =
      .ok "CREATE OR REPLACE TABLE tbl_1 (\n    A INTEGER,\n    B VARCHAR(4)\n);" :=
  ((generate_ddl_spec "tbl_1" [("A", "INTEGER"), ("B", "VARCHAR(4)")]).2.2
    (Or.inl (by decide)) (by decide)).trans rfl

/-- A JSON value as `json.load` hands it to Python (`null`, numbers modelled
by their integer case — the config schema only type-checks `int` and `list`,
and floats would fail both checks like strings do, so they are covered by
`vStr`-style non-matching cases). -/
inductive CVal where
  | vInt (n : Int)
  | vBool (b : Bool)
  | vStr (s : String)
  | vList (l : List CVal)
  | vNull

/-- `isinstance(x, int)` — Python `bool` is a subclass of `int`. -/
def isInstInt : CVal → Bool
  | .vInt _ => true
  | .vBool _ => true
  | _ => false

/-- `isinstance(x, list)`. -/
def isInstList : CVal → Bool
  | .vList _ => true
  | _ => false

/-- The default `DDLConfig.__init__` inserts for a missing key (line 76):
`[]` for the three list-of-strings keys, `16777216` otherwise. -/
def defaultFor (key : String) : CVal :=
  if key = "date_formats" || key = "timestamp_formats" || key = "usecols" then
    .vList []
  else .vInt 16777216

/-- `config[key]` after the missing-key default was inserted.  The document
is an association list with unique keys (a parsed JSON object). -/
def getKey (doc : List (String × CVal)) (key : String) : CVal :=
  (List.lookup key doc).getD (defaultFor key)

/-- The attributes `DDLConfig.__init__` stores on success. -/
structure DDLConfigRec where
  default_string_length : CVal
  varchar_tiers : CVal
  date_formats : CVal
  timestamp_formats : CVal
  usecols : CVal

/-- `DDLConfig.__init__` (lines 66-88) on an already-parsed JSON document:
walk the `SCHEMA` keys in order (`default_string_length`, `varchar_tiers`,
`date_formats`, `timestamp_formats`, `usecols`), silently substituting the
default for a missing key, and raise `ValueError` at the first key whose
(possibly defaulted) value has the wrong type. -/
def DDLConfig_init (doc : List (String × CVal)) : Except String DDLConfigRec :=
  let v1 := getKey doc "default_string_length"
  if !(isInstInt v1) then .error "Invalid type for default_string_length"
  else
    let v2 := getKey doc "varchar_tiers"
    if !(isInstList v2) then .error "Invalid type for varchar_tiers"
    else
      let v3 := getKey doc "date_formats"
      if !(isInstList v3) then .error "Invalid type for date_formats"
      else
        let v4 := getKey doc "timestamp_formats"
        if !(isInstList v4) then .error "Invalid type for timestamp_formats"
        else
          let v5 := getKey doc "usecols"
          if !(isInstList v5) then .error "Invalid type for usecols"
          else .ok ⟨v1, v2, v3, v4, v5⟩

/-- C8 counterexample: a configuration document that omits the required field
`default_string_length` (but has the other four fields well-typed) loads
successfully, with the default `16777216` silently applied — the claim says
loading must fail with a `ConfigError` for every missing required field. -/
theorem DDLConfig_init_missing_key_counterexample :
    List.lookup "default_string_length"
        [("varchar_tiers", CVal.vList [CVal.vInt 10]),
          ("date_formats", CVal.vList []),
          ("timestamp_formats", CVal.vList []),
          ("usecols", CVal.vList [])] = none ∧
      DDLConfig_init
          [("varchar_tiers", CVal.vList [CVal.vInt 10]),
            ("date_formats", CVal.vList []),
            ("timestamp_formats", CVal.vList []),
            ("usecols", CVal.vList [])] =
        .ok ⟨.vInt 16777216, .vList [.vInt 10], .vList [], .vList [],
          .vList []⟩ :=
  ⟨rfl, rfl⟩

/-- C8 (amended): loading succeeds iff every `SCHEMA` field — after filling a
missing one with its default (`16777216` for `default_string_length` and
`varchar_tiers`, `[]` for the three list keys) — passes its `isinstance`
check; a missing `default_string_length` is therefore silently defaulted to
`16777216` rather than failing, while a missing `varchar_tiers` does make
loading fail (its substituted default `16777216` is not a list). -/
theorem DDLConfig_init_spec (doc : List (String × CVal)) :
    ((∃ r, DDLConfig_init doc = .ok r) ↔
      (isInstInt (getKey doc "default_string_length") = true ∧
        isInstList (getKey doc "varchar_tiers") = true ∧
        isInstList (getKey doc "date_formats") = true ∧
        isInstList (getKey doc "timestamp_formats") = true ∧
        isInstList (getKey doc "usecols") = true)) ∧
    (List.lookup "default_string_length" doc = none →
      ∀ r, DDLConfig_init doc = .ok r →
        r.default_string_length = .vInt 16777216) ∧
    (List.lookup "varchar_tiers" doc = none →
      ¬∃ r, DDLConfig_init doc = .ok r) := by
  simp only [DDLConfig_init]
  split_ifs with h1 h2 h3 h4 h5
  case pos =>
    rw [Bool.not_eq_true'] at h1
    refine ⟨?_, ?_, ?_⟩
    · simp [h1]
    · intro _ r hr
      simp at hr
    · intro _ h
      obtain ⟨r, hr⟩ := h
      simp at hr
  case pos =>
    rw [Bool.not_eq_true'] at h2
    refine ⟨?_, ?_, ?_⟩
    · simp [h2]
    · intro _ r hr
      simp at hr
    · intro _ h
      obtain ⟨r, hr⟩ := h
      simp at hr
  case pos =>
    rw [Bool.not_eq_true'] at h3
    refine ⟨?_, ?_, ?_⟩
    · simp [h3]
    · intro _ r hr
      simp at hr
    · intro _ h
      obtain ⟨r, hr⟩ := h
      simp at hr
  case pos =>
    rw [Bool.not_eq_true'] at h4
    refine ⟨?_, ?_, ?_⟩
    · simp [h4]
    · intro _ r hr
      simp at hr
    · intro _ h
      obtain ⟨r, hr⟩ := h
      simp at hr
  case pos =>
    rw [Bool.not_eq_true'] at h5
    refine ⟨?_, ?_, ?_⟩
    · simp [h5]
    · intro _ r hr
      simp at hr
    · intro _ h
      obtain ⟨r, hr⟩ := h
      simp at hr
  case neg =>
    simp only [Bool.not_eq_true, Bool.not_eq_false'] at h1 h2 h3 h4 h5
    refine ⟨?_, ?_, ?_⟩
    · simp [h1, h2, h3, h4, h5]
    · intro hnone r hr
      injection hr with hr
      subst hr
      show getKey doc "default_string_length" = CVal.vInt 16777216
      rw [getKey, hnone]
      rfl
    · intro hnone
      exfalso
      have hvt : getKey doc "varchar_tiers" = CVal.vInt 16777216 := by
        rw [getKey, hnone]
        rfl
      rw [hvt] at h2
      cases h2

theorem DDLConfig_init_spec_witness :
    (∃ r, DDLConfig_init
        [("default_string_length", CVal.vInt 16),
          ("varchar_tiers", CVal.vList [CVal.vInt 4, CVal.vInt 16]),
          ("date_formats", CVal.vList [CVal.vStr "%Y-%m-%d"]),
          ("timestamp_formats", CVal.vList []),
          ("usecols", CVal.vList [])] = .ok r) ∧
      ¬∃ r, DDLConfig_init [("default_string_length", CVal.vInt 16)] = .ok r :=
  ⟨(DDLConfig_init_spec
      [("default_string_length", CVal.vInt 16),
        ("varchar_tiers", CVal.vList [CVal.vInt 4, CVal.vInt 16]),
        ("date_formats", CVal.vList [CVal.vStr "%Y-%m-%d"]),
        ("timestamp_formats", CVal.vList []),
        ("usecols", CVal.vList [])]).1.mpr
      ⟨rfl, rfl, rfl, rfl, rfl⟩,
    (DDLConfig_init_spec [("default_string_length", CVal.vInt 16)]).2.2 rfl⟩

/-- One record of the JSON schema sidecar: `{"name": ..., "type": ...}`.
The `json.dumps`/`json.load` text round trip is the JSON library and is
modelled as the identity on these records. -/
structure JRec where
  name : String
  type : String

/-- `schema_dict = [{"name": col, "type": typ} for col, typ in new_schema]`
(`main`, lines 362-366). -/
def renderJSON (schema : List (String × String)) : List JRec :=
  schema.map fun p => ⟨p.1, p.2⟩

/-- Python `.upper()` character by character; the schema names and rendered
types this is applied to are ASCII, where `Char.toUpper` agrees with
Python. -/
def pyUpper (s : String) : String :=
  String.mk (s.toList.map Char.toUpper)

/-- The JSON branch of `parse_existing_schema` (lines 121-130):
`[(col['name'].upper(), col['type'].upper()) for col in schema_data]`. -/
def parse_schema_json (records : List JRec) : List (String × String) :=
  records.map fun r => (pyUpper r.name, pyUpper r.type)

/-- An uppercase identifier `[A-Z][A-Z0-9_]*`, via ASCII codes. -/
def upperChar (c : Char) : Bool :=
  65 ≤ c.toNat && c.toNat ≤ 90

/-- A tail character of an uppercase identifier: `[A-Z0-9_]`. -/
def identTailChar (c : Char) : Bool :=
  upperChar c || (48 ≤ c.toNat && c.toNat ≤ 57) || c == '_'

def identUpper (s : String) : Bool :=
  match s.toList with
  | [] => false
  | c :: cs => upperChar c && cs.all identTailChar

/-- The closed set of column types the engine renders. -/
inductive TypeTag where
  | varchar (n : Nat)
  | integer
  | float
  | boolean
  | date
  | timestamp

/-- The rendered (uppercase) type string of each `TypeTag`. -/
def renderType : TypeTag → String
  | .varchar n => "VARCHAR(" ++ Nat.repr n ++ ")"
  | .integer => "INTEGER"
  | .float => "FLOAT"
  | .boolean => "BOOLEAN"
  | .date => "DATE"
  | .timestamp => "TIMESTAMP"

theorem toUpper_eq_self {c : Char} (h : c.toNat < 97) : c.toUpper = c := by
  unfold Char.toUpper
  rw [if_neg]
  rintro ⟨h1, _⟩
  omega

theorem digitChar_toNat_lt {m : Nat} (h : m < 10) :
    (Nat.digitChar m).toNat < 97 := by
  interval_cases m <;> decide

theorem toDigitsCore_toNat_lt :
    ∀ (fuel n : Nat) (ds : List Char), (∀ c ∈ ds, c.toNat < 97) →
      ∀ c ∈ Nat.toDigitsCore 10 fuel n ds, c.toNat < 97 := by
  intro fuel
  induction fuel with
  | zero =>
    intro n ds h c hc
    rw [Nat.toDigitsCore] at hc
    exact h c hc
  | succ f ih =>
    intro n ds h c hc
    rw [Nat.toDigitsCore] at hc
    have hd : ∀ x ∈ (Nat.digitChar (n % 10)) :: ds, x.toNat < 97 := by
      intro x hx
      rcases List.mem_cons.mp hx with rfl | hx2
      · exact digitChar_toNat_lt (Nat.mod_lt _ (by norm_num))
      · exact h x hx2
    by_cases h0 : n / 10 = 0
    · rw [if_pos h0] at hc
      exact hd c hc
    · rw [if_neg h0] at hc
      exact ih (n / 10) _ hd c hc

theorem repr_toNat_lt (n : Nat) : ∀ c ∈ (Nat.repr n).toList, c.toNat < 97 := by
  intro c hc
  have h2 : (Nat.repr n).toList = Nat.toDigitsCore 10 (n + 1) n [] := rfl
  rw [h2] at hc
  exact toDigitsCore_toNat_lt (n + 1) n [] (by simp) c hc

theorem pyUpper_eq_self {s : String} (h : ∀ c ∈ s.toList, c.toNat < 97) :
    pyUpper s = s := by
  unfold pyUpper
  have h2 : s.toList.map Char.toUpper = s.toList.map id :=
    List.map_congr_left fun c hc => toUpper_eq_self (h c hc)
  rw [h2, List.map_id]
  cases s
  rfl

theorem identUpper_toNat_lt {s : String} (h : identUpper s = true) :
    ∀ c ∈ s.toList, c.toNat < 97 := by
  intro c hc
  rw [identUpper] at h
  rcases hl : s.toList with _ | ⟨d, ds⟩
  · rw [hl] at hc
    cases hc
  · rw [hl] at h hc
    rw [Bool.and_eq_true] at h
    rcases List.mem_cons.mp hc with rfl | hc2
    · have h3 : upperChar c = true := h.1
      rw [upperChar, Bool.and_eq_true, decide_eq_true_iff, decide_eq_true_iff] at h3
      omega
    · have h3 : identTailChar c = true := List.all_eq_true.mp h.2 c hc2
      rw [identTailChar, Bool.or_eq_true_iff, Bool.or_eq_true_iff] at h3
      rcases h3 with (h4 | h4) | h4
      · rw [upperChar, Bool.and_eq_true, decide_eq_true_iff, decide_eq_true_iff] at h4
        omega
      · rw [Bool.and_eq_true, decide_eq_true_iff, decide_eq_true_iff] at h4
        omega
      · rw [eq_of_beq h4]
        decide

theorem renderType_toNat_lt (t : TypeTag) :
    ∀ c ∈ (renderType t).toList, c.toNat < 97 := by
  cases t with
  | varchar n =>
    intro c hc
    have h2 : (renderType (.varchar n)).toList =
        "VARCHAR(".toList ++ (Nat.repr n).toList ++ [')'] := by
      show (("VARCHAR(" ++ Nat.repr n) ++ ")").data = _
      rw [String.data_append, String.data_append]
      rfl
    rw [h2] at hc
    rcases List.mem_append.mp hc with hc2 | hc2
    · rcases List.mem_append.mp hc2 with hc3 | hc3
      · have hall : ∀ x ∈ "VARCHAR(".toList, x.toNat < 97 := by decide
        exact hall c hc3
      · exact repr_toNat_lt n c hc3
    · rw [List.mem_singleton.mp hc2]
      decide
  | integer => decide
  | float => decide
  | boolean => decide
  | date => decide
  | timestamp => decide

/-- C9: for a schema whose column names are uppercase identifiers
(`[A-Z][A-Z0-9_]*`) and whose types are rendered uppercase type strings,
parsing the rendered JSON sidecar returns it unchanged, same columns in the
same order. -/
theorem parse_renderJSON_roundtrip (schema : List (String × String))
    (h : ∀ p ∈ schema,
      identUpper p.1 = true ∧ ∃ t : TypeTag, p.2 = renderType t) :
    parse_schema_json (renderJSON schema) = schema := by
  unfold parse_schema_json renderJSON
  rw [List.map_map]
  have h2 : ∀ p ∈ schema,
      ((fun r : JRec => (pyUpper r.name, pyUpper r.type)) ∘
        fun p : String × String => JRec.mk p.1 p.2) p = id p := by
    intro p hp
    obtain ⟨hn, t, ht⟩ := h p hp
    have e1 : pyUpper p.1 = p.1 := pyUpper_eq_self (identUpper_toNat_lt hn)
    have e2 : pyUpper p.2 = p.2 := by
      rw [ht]
      exact pyUpper_eq_self (renderType_toNat_lt t)
    show (pyUpper p.1, pyUpper p.2) = p
    rw [e1, e2]
  rw [List.map_congr_left h2, List.map_id]

theorem parse_renderJSON_roundtrip_witness :
    parse_schema_json (renderJSON
        [("ID", "INTEGER"), ("NOTE", "VARCHAR(4)"), ("TS_2", "TIMESTAMP")]) =
      [("ID", "INTEGER"), ("NOTE", "VARCHAR(4)"), ("TS_2", "TIMESTAMP")] := by
  apply parse_renderJSON_roundtrip
  intro p hp
  simp only [List.mem_cons, List.not_mem_nil, or_false] at hp
  rcases hp with rfl | rfl | rfl
  · exact ⟨by decide, ⟨.integer, rfl⟩⟩
  · exact ⟨by decide, ⟨.varchar 4, rfl⟩⟩
  · exact ⟨by decide, ⟨.timestamp, rfl⟩⟩

example : compare_schemas [("X", "FLOAT")] [("X", "INTEGER")] = true := by decide
example : compare_schemas [("X", "VARCHAR(5)")] [("X", "VARCHAR(10)")] = false := by decide
example : compare_schemas [("X", "VARCHAR(5)")] [] = true := by decide
example : compare_schemas [] [] = true := by decide
example : compare_schemas [("A", "INTEGER")] [("A", "INTEGER")] = false := by decide
example : compare_schemas [("A", "INTEGER"), ("B", "VARCHAR(50)")] [("A", "INTEGER")] = false := by decide
example : varcharLen "VARCHAR(64)" = some 64 := by decide
example : varcharLen "VARCHAR" = none := by decide
example : classifyCol "VARCHAR(10)" "VARCHAR" = .widen := by decide
example : compare_schemas [("X", "VARCHAR(5)")] [("X", "VARCHAR")] = false := by decide

end DDLGen
